import Mathlib

/-!
Shallow embedding of the batch upgrade orchestrator in
`cmd/krew/cmd/upgrade.go` (`upgradeCmd.RunE`), together with theorems
about its mode selection, batch loop, error tolerance and reporting.
-/

set_option autoImplicit false

namespace KrewUpgrade

/-- A plugin manifest as returned by `indexscanner.LoadPluginByName`.
The orchestrator only reads its `Name` field (passed to
`internal.PrintSecurityNotice`). -/
structure Plugin where
  name : String
deriving DecidableEq, Repr

/-- Result of `indexscanner.LoadPluginByName`: a manifest, a not-found
error (one for which `os.IsNotExist(err)` holds), or any other error. -/
inductive LookupResult where
  | found (plugin : Plugin)
  | notFound (errMsg : String)
  | otherError (errMsg : String)
deriving DecidableEq, Repr

/-- Result of `installation.Upgrade`: a nil error, the sentinel
`installation.ErrIsAlreadyUpgraded`, or any other error. -/
inductive UpgradeResult where
  | success
  | alreadyUpgraded
  | failure (errMsg : String)
deriving DecidableEq, Repr

/-- Message text carried by the sentinel `installation.ErrIsAlreadyUpgraded`.
The sentinel lives in `internal/installation`, outside this unit; only its
identity matters to the orchestrator, never its text. -/
def errIsAlreadyUpgradedMsg : String :=
  "plugin is already on the newest version"

/-- External collaborators of one invocation: the outcome of
`installation.ListInstalledPlugins` (its keys listed in Go map iteration
order), the manifest lookup, and the upgrade operation. -/
structure Env where
  installed : Except String (List String)
  lookup : String → LookupResult
  upgrade : Plugin → UpgradeResult

/-- One observable emission of the command: a line written to stderr, or
the call to `internal.PrintSecurityNotice`. -/
inductive Event where
  | upgradingPlugin (name : String)
  | skippingAlready (name : String)
  | warningFailed (name : String) (errMsg : String)
  | upgradedPlugin (name : String)
  | securityNotice (name : String)
  | warningSummary
deriving DecidableEq, Repr

/-- Literal stderr text of each emission, following the Go format strings
verbatim; `PrintSecurityNotice` output is produced outside this unit and
is rendered symbolically. -/
def Event.render : Event → String
  | .upgradingPlugin name => "Upgrading plugin: " ++ name
  | .skippingAlready name =>
      "Skipping plugin " ++ name ++ ", it is already on the newest version"
  | .warningFailed name e =>
      "WARNING: failed to upgrade plugin \"" ++ name ++ "\", skipping (error: " ++ e ++ ")"
  | .upgradedPlugin name => "Upgraded plugin: " ++ name
  | .securityNotice name => "<security notice for " ++ name ++ ">"
  | .warningSummary => "WARNING: Some plugins failed to upgrade, check logs above."

/-- Outcome of one iteration of the batch loop: either the iteration
returns a fatal error, ending `RunE`, or the loop continues. `inc`
records whether `nErrors` was incremented during the iteration and
`events` what the iteration emitted. -/
inductive StepResult where
  | fatal (events : List Event) (inc : Bool) (errMsg : String)
  | cont (events : List Event) (inc : Bool)
deriving DecidableEq, Repr

/-- One iteration of the loop body of `upgradeCmd.RunE` for plugin
`name`, under the flags `ignoreUpgraded` and `skipErrors`. -/
def stepPlugin (env : Env) (ignoreUpgraded skipErrors : Bool) (name : String) : StepResult :=
  match env.lookup name with
  | .otherError e =>
      .fatal [] false ("failed to load the plugin manifest for plugin " ++ name ++ ": " ++ e)
  | .notFound e =>
      if !skipErrors then
        .fatal [] false ("plugin \"" ++ name ++ "\" does not exist in the plugin index")
      else
        .cont [.warningFailed name e] true
  | .found plugin =>
      match env.upgrade plugin with
      | .success =>
          .cont [.upgradingPlugin name, .upgradedPlugin name, .securityNotice plugin.name] false
      | .alreadyUpgraded =>
          if ignoreUpgraded then
            .cont [.upgradingPlugin name, .skippingAlready name] false
          else if skipErrors then
            .cont [.upgradingPlugin name, .warningFailed name errIsAlreadyUpgradedMsg] true
          else
            .fatal [.upgradingPlugin name] true
              ("failed to upgrade plugin \"" ++ name ++ "\": " ++ errIsAlreadyUpgradedMsg)
      | .failure e =>
          if skipErrors then
            .cont [.upgradingPlugin name, .warningFailed name e] true
          else
            .fatal [.upgradingPlugin name] true
              ("failed to upgrade plugin \"" ++ name ++ "\": " ++ e)

/-- Events emitted by a step. -/
def stepEvents : StepResult → List Event
  | .fatal evs _ _ => evs
  | .cont evs _ => evs

/-- Contribution of a step to the `nErrors` counter. -/
def stepIncN : StepResult → Nat
  | .fatal _ inc _ => if inc then 1 else 0
  | .cont _ inc => if inc then 1 else 0

/-- Fatal error returned from within a step, if any. -/
def stepFatal : StepResult → Option String
  | .fatal _ _ e => some e
  | .cont _ _ => none

/-- The batch loop of `upgradeCmd.RunE`: iterate the plugin names in
order, accumulating emitted events and the `nErrors` counter, and stop at
the first fatal error. Returns the events, the final counter and the
fatal error, if one occurred. -/
def runLoop (env : Env) (ignoreUpgraded skipErrors : Bool) :
    List String → List Event → Nat → List Event × Nat × Option String
  | [], acc, n => (acc, n, none)
  | name :: rest, acc, n =>
      match stepPlugin env ignoreUpgraded skipErrors name with
      | .fatal evs inc e => (acc ++ evs, n + (if inc then 1 else 0), some e)
      | .cont evs inc =>
          runLoop env ignoreUpgraded skipErrors rest (acc ++ evs) (n + (if inc then 1 else 0))

/-- The invocation mode: the pair of flags set by `upgradeCmd.RunE` before
the loop (the spec's `\x7bignoreAlreadyUpgraded, tolerateErrors\x7d`). -/
structure Mode where
  ignoreUpgraded : Bool
  skipErrors : Bool
deriving DecidableEq, Repr

/-- The target-set resolver of `upgradeCmd.RunE`: with no arguments, the
names of all installed plugins (in the order `ListInstalledPlugins`
enumerates them) and flags `(true, true)`; with explicit arguments, the
arguments verbatim and flags `(false, false)`. A failure to enumerate the
installed plugins is fatal. -/
def resolveTargets (env : Env) (args : List String) :
    Except String (List String × Mode) :=
  if args.isEmpty then
    match env.installed with
    | .error e => .error ("failed to find all installed versions: " ++ e)
    | .ok names => .ok (names, ⟨true, true⟩)
  else
    .ok (args, ⟨false, false⟩)

/-- The observable result of one `RunE` invocation: the emitted events,
the final `nErrors` counter, and the returned error (`none` models a nil
return, exit status 0). -/
structure RunResult where
  events : List Event
  nErrors : Nat
  fatal : Option String
deriving DecidableEq, Repr

/-- End of `RunE` after the loop: on normal completion the summary warning
is printed when `nErrors > 0` and nil is returned; a fatal error from
inside the loop is returned as-is, with no summary. -/
def finish : List Event × Nat × Option String → RunResult
  | (evs, n, some e) => ⟨evs, n, some e⟩
  | (evs, n, none) => ⟨evs ++ (if n > 0 then [Event.warningSummary] else []), n, none⟩

/-- The whole of `upgradeCmd.RunE`: resolve the target set and the mode
flags, run the batch loop, and finish. -/
def upgradeRunE (env : Env) (args : List String) : RunResult :=
  match resolveTargets env args with
  | .error e => ⟨[], 0, some e⟩
  | .ok (names, mode) => finish (runLoop env mode.ignoreUpgraded mode.skipErrors names [] 0)

/-- Concatenation, in list order, of the events of each name's step. -/
def eventsOfList (env : Env) (ignoreUpgraded skipErrors : Bool) : List String → List Event
  | [] => []
  | p :: rest =>
      stepEvents (stepPlugin env ignoreUpgraded skipErrors p)
        ++ eventsOfList env ignoreUpgraded skipErrors rest

/-- Sum of the `nErrors` contributions of each name's step. -/
def incsOfList (env : Env) (ignoreUpgraded skipErrors : Bool) : List String → Nat
  | [] => 0
  | p :: rest =>
      stepIncN (stepPlugin env ignoreUpgraded skipErrors p)
        + incsOfList env ignoreUpgraded skipErrors rest

/-- Concrete collaborator environment for evaluating the theorems at
specific inputs: `foo` upgrades successfully, `cur` is already on the
newest version, `bad` fails to upgrade, `miss` is absent from the index,
and `ioerr` makes the manifest lookup fail with a non-not-found error.
The installed set is `foo` and `bad`. -/
def envW : Env where
  installed := .ok ["foo", "bad"]
  lookup := fun n =>
    if n = "ioerr" then .otherError "permission denied"
    else if n = "miss" then .notFound "open: no such file or directory"
    else .found ⟨n⟩
  upgrade := fun pl =>
    if pl.name = "cur" then .alreadyUpgraded
    else if pl.name = "bad" then .failure "download checksum mismatch"
    else .success

/-- Unfolding the loop once when the step does not return fatally. -/
theorem runLoop_cons_of_cont (env : Env) (i s : Bool) (name : String)
    (rest : List String) (acc : List Event) (n : Nat)
    (h : stepFatal (stepPlugin env i s name) = none) :
    runLoop env i s (name :: rest) acc n
      = runLoop env i s rest (acc ++ stepEvents (stepPlugin env i s name))
          (n + stepIncN (stepPlugin env i s name)) := by
  cases hst : stepPlugin env i s name with
  | fatal evs inc e => rw [hst] at h; simp [stepFatal] at h
  | cont evs inc => simp [runLoop, hst, stepEvents, stepIncN]

/-- Unfolding the loop once when the step returns fatally. -/
theorem runLoop_cons_of_fatal (env : Env) (i s : Bool) (name : String)
    (rest : List String) (acc : List Event) (n : Nat)
    (evs : List Event) (inc : Bool) (e : String)
    (h : stepPlugin env i s name = .fatal evs inc e) :
    runLoop env i s (name :: rest) acc n
      = (acc ++ evs, n + (if inc then 1 else 0), some e) := by
  simp [runLoop, h]

/-- Running the loop across a block of names none of which steps fatally
appends that block's events and adds its counter contributions. -/
theorem runLoop_append_of_cont (env : Env) (i s : Bool) (l : List String)
    (hl : ∀ p ∈ l, stepFatal (stepPlugin env i s p) = none) :
    ∀ (rest : List String) (acc : List Event) (n : Nat),
      runLoop env i s (l ++ rest) acc n
        = runLoop env i s rest (acc ++ eventsOfList env i s l) (n + incsOfList env i s l) := by
  induction l with
  | nil => intro rest acc n; simp [eventsOfList, incsOfList]
  | cons p t ih =>
      intro rest acc n
      have hp : stepFatal (stepPlugin env i s p) = none := hl p (List.mem_cons_self p t)
      have ht : ∀ q ∈ t, stepFatal (stepPlugin env i s q) = none := fun q hq =>
        hl q (List.mem_cons_of_mem p hq)
      rw [List.cons_append, runLoop_cons_of_cont env i s p (t ++ rest) acc n hp, ih ht]
      simp [eventsOfList, incsOfList, List.append_assoc, Nat.add_assoc]

/-- A step never emits the end-of-run summary line. -/
theorem summary_not_mem_stepEvents (env : Env) (i s : Bool) (name : String) :
    Event.warningSummary ∉ stepEvents (stepPlugin env i s name) := by
  cases hl : env.lookup name with
  | found pl =>
      cases hu : env.upgrade pl with
      | success => simp [stepPlugin, hl, hu, stepEvents]
      | alreadyUpgraded => cases i <;> cases s <;> simp [stepPlugin, hl, hu, stepEvents]
      | failure e => cases s <;> simp [stepPlugin, hl, hu, stepEvents]
  | notFound e => cases s <;> simp [stepPlugin, hl, stepEvents]
  | otherError e => simp [stepPlugin, hl, stepEvents]

/-- The loop itself never emits the end-of-run summary line. -/
theorem summary_not_mem_runLoop (env : Env) (i s : Bool) (l : List String) :
    ∀ (acc : List Event) (n : Nat), Event.warningSummary ∉ acc →
      Event.warningSummary ∉ (runLoop env i s l acc n).1 := by
  induction l with
  | nil => intro acc n h; simpa [runLoop] using h
  | cons p t ih =>
      intro acc n h
      have hstep := summary_not_mem_stepEvents env i s p
      cases hst : stepPlugin env i s p with
      | fatal evs inc e =>
          rw [hst] at hstep
          simp only [runLoop, hst]
          simp only [stepEvents] at hstep
          intro hmem
          rcases List.mem_append.mp hmem with h1 | h2
          · exact h h1
          · exact hstep h2
      | cont evs inc =>
          rw [hst] at hstep
          simp only [stepEvents] at hstep
          simp only [runLoop, hst]
          apply ih
          intro hmem
          rcases List.mem_append.mp hmem with h1 | h2
          · exact h h1
          · exact hstep h2

/-- On a triple whose events lack the summary line, `finish` shows the
summary exactly when it returns nil with a positive counter. -/
theorem finish_summary_iff (evs : List Event) (n : Nat) (f : Option String)
    (h : Event.warningSummary ∉ evs) :
    (Event.warningSummary ∈ (finish (evs, n, f)).events
      ↔ ((finish (evs, n, f)).fatal = none ∧ (finish (evs, n, f)).nErrors > 0)) := by
  cases f with
  | some e => simp [finish, h]
  | none =>
      by_cases hn : n > 0
      · simp [finish, hn]
      · simp [finish, hn, h, Nat.pos_iff_ne_zero]

/-- In explicit-names mode a non-fatal step is a successful upgrade, so it
contributes nothing to the counter. -/
theorem stepIncN_explicit_of_cont (env : Env) (p : String)
    (h : stepFatal (stepPlugin env false false p) = none) :
    stepIncN (stepPlugin env false false p) = 0 := by
  cases hl : env.lookup p with
  | found pl =>
      cases hu : env.upgrade pl with
      | success => simp [stepPlugin, hl, hu, stepIncN]
      | alreadyUpgraded => simp [stepPlugin, hl, hu, stepFatal] at h
      | failure e => simp [stepPlugin, hl, hu, stepFatal] at h
  | notFound e => simp [stepPlugin, hl, stepFatal] at h
  | otherError e => simp [stepPlugin, hl, stepFatal] at h

/-- In explicit-names mode, a block of non-fatal steps leaves the counter
at zero. -/
theorem incsOfList_explicit_of_cont (env : Env) (l : List String)
    (hl : ∀ p ∈ l, stepFatal (stepPlugin env false false p) = none) :
    incsOfList env false false l = 0 := by
  induction l with
  | nil => rfl
  | cons p t ih =>
      have hp := stepIncN_explicit_of_cont env p (hl p (List.mem_cons_self p t))
      have ht := ih fun q hq => hl q (List.mem_cons_of_mem p hq)
      simp [incsOfList, hp, ht]

/-- A successfully upgraded name's success line appears in the block's
concatenated events. -/
theorem upgraded_mem_eventsOfList (env : Env) (i s : Bool) (l : List String)
    (hl : ∀ p ∈ l, ∃ pl, env.lookup p = .found pl ∧ env.upgrade pl = .success) :
    ∀ p ∈ l, Event.upgradedPlugin p ∈ eventsOfList env i s l := by
  induction l with
  | nil => intro p hp; simp at hp
  | cons q t ih =>
      intro p hp
      rcases List.mem_cons.mp hp with hpq | hpt
      · subst hpq
        obtain ⟨pl, h1, h2⟩ := hl p (List.mem_cons_self p t)
        simp [eventsOfList, stepPlugin, h1, h2, stepEvents]
      · have := ih (fun q hq => hl q (List.mem_cons_of_mem _ hq)) p hpt
        simp [eventsOfList]
        right
        exact this

/-- A step of a name whose lookup and upgrade both succeed is non-fatal. -/
theorem stepFatal_none_of_success (env : Env) (i s : Bool) (p : String)
    (pl : Plugin) (h1 : env.lookup p = .found pl) (h2 : env.upgrade pl = .success) :
    stepFatal (stepPlugin env i s p) = none := by
  simp [stepPlugin, h1, h2, stepFatal]

/-- C3: the two mode flags are derived solely from whether explicit names
were given and always move in lockstep: zero arguments yields
`ignoreUpgraded = skipErrors = true` regardless of the installed-set
contents, and one or more arguments yields both flags false. -/
theorem mode_flags_lockstep (env : Env) (args : List String) :
    (args = [] → ∀ names, env.installed = .ok names →
        resolveTargets env args = .ok (names, ⟨true, true⟩))
    ∧ (args ≠ [] → resolveTargets env args = .ok (args, ⟨false, false⟩)) := by
  constructor
  · intro h names hin
    subst h
    simp [resolveTargets, hin]
  · intro h
    have hie : args.isEmpty = false := by
      cases args with
      | nil => exact absurd rfl h
      | cons a t => rfl
    simp [resolveTargets, hie]

/-- Witness for C3: on the concrete environment, zero arguments yields the
installed names with flags `(true, true)` and an explicit argument yields
that argument with flags `(false, false)`. -/
theorem mode_flags_lockstep_witness :
    resolveTargets envW [] = .ok (["foo", "bad"], ⟨true, true⟩)
    ∧ resolveTargets envW ["x"] = .ok (["x"], ⟨false, false⟩) :=
  ⟨(mode_flags_lockstep envW []).1 rfl ["foo", "bad"] rfl,
   (mode_flags_lockstep envW ["x"]).2 (by decide)⟩

/-- C6: a manifest lookup failing with any error other than not-found is
fatal under either flag assignment: the loop returns at once with the
wrapped error naming the plugin, emitting nothing and processing no
further names. -/
theorem lookup_other_error_always_fatal (env : Env) (i s : Bool)
    (name e : String) (rest : List String) (acc : List Event) (n : Nat)
    (h : env.lookup name = .otherError e) :
    runLoop env i s (name :: rest) acc n
      = (acc, n,
          some ("failed to load the plugin manifest for plugin " ++ name ++ ": " ++ e)) := by
  have hst : stepPlugin env i s name
      = .fatal [] false
          ("failed to load the plugin manifest for plugin " ++ name ++ ": " ++ e) := by
    simp [stepPlugin, h]
  simp [runLoop, hst]

/-- Witness for C6 at the plugin whose lookup fails with an I/O error, in
all-plugins (tolerant) mode. -/
theorem lookup_other_error_always_fatal_witness :
    runLoop envW true true ["ioerr", "foo"] [] 0
      = ([], 0,
          some ("failed to load the plugin manifest for plugin " ++ "ioerr" ++ ": "
            ++ "permission denied")) :=
  lookup_other_error_always_fatal envW true true "ioerr" "permission denied"
    ["foo"] [] 0 (by decide)

/-- C2: in all-plugins mode a not-found lookup or a generic upgrade
failure never halts the loop: the next names are still processed and the
failure counter increases by exactly one. -/
theorem tolerant_failure_continues (env : Env) (name : String)
    (rest : List String) (acc : List Event) (n : Nat)
    (h : (∃ e, env.lookup name = .notFound e)
        ∨ (∃ pl e, env.lookup name = .found pl ∧ env.upgrade pl = .failure e)) :
    runLoop env true true (name :: rest) acc n
      = runLoop env true true rest
          (acc ++ stepEvents (stepPlugin env true true name)) (n + 1) := by
  rcases h with ⟨e, he⟩ | ⟨pl, e, h1, h2⟩
  · have hst : stepPlugin env true true name = .cont [.warningFailed name e] true := by
      simp [stepPlugin, he]
    simp [runLoop, hst, stepEvents]
  · have hst : stepPlugin env true true name
        = .cont [.upgradingPlugin name, .warningFailed name e] true := by
      simp [stepPlugin, h1, h2]
    simp [runLoop, hst, stepEvents]

/-- Witness for C2 at the plugin with a failing upgrade: the loop goes on
to the remaining name with the counter raised from 0 to 1. -/
theorem tolerant_failure_continues_witness :
    runLoop envW true true ["bad", "foo"] [] 0
      = runLoop envW true true ["foo"]
          ([] ++ stepEvents (stepPlugin envW true true "bad")) (0 + 1) :=
  tolerant_failure_continues envW "bad" ["foo"] [] 0
    (Or.inr ⟨⟨"bad"⟩, "download checksum mismatch", by decide, by decide⟩)

/-- C4: in all-plugins mode an already-current plugin is not counted as a
failure and is not fatal: the skip line is emitted and the loop proceeds
to the next name with the counter unchanged. -/
theorem already_current_tolerated (env : Env) (name : String) (pl : Plugin)
    (rest : List String) (acc : List Event) (n : Nat)
    (h1 : env.lookup name = .found pl) (h2 : env.upgrade pl = .alreadyUpgraded) :
    stepFatal (stepPlugin env true true name) = none
    ∧ runLoop env true true (name :: rest) acc n
        = runLoop env true true rest
            (acc ++ [.upgradingPlugin name, .skippingAlready name]) n := by
  have hst : stepPlugin env true true name
      = .cont [.upgradingPlugin name, .skippingAlready name] false := by
    simp [stepPlugin, h1, h2]
  exact ⟨by simp [hst, stepFatal], by simp [runLoop, hst]⟩

/-- Witness for C4 at the already-current plugin. -/
theorem already_current_tolerated_witness :
    stepFatal (stepPlugin envW true true "cur") = none
    ∧ runLoop envW true true ["cur", "foo"] [] 0
        = runLoop envW true true ["foo"]
            ([] ++ [.upgradingPlugin "cur", .skippingAlready "cur"]) 0 :=
  already_current_tolerated envW "cur" ⟨"cur"⟩ ["foo"] [] 0 (by decide) (by decide)

/-- C9: in all-plugins mode a not-found plugin gets no distinct missing
treatment: its step emits no start line, only the generic tolerated
failure warning carrying the raw not-found error, the counter is raised
by one, and the loop proceeds — identical to a generic failed outcome. -/
theorem missing_counted_as_generic_failure (env : Env) (name e : String)
    (rest : List String) (acc : List Event) (n : Nat)
    (h : env.lookup name = .notFound e) :
    stepPlugin env true true name = .cont [.warningFailed name e] true
    ∧ Event.upgradingPlugin name ∉ stepEvents (stepPlugin env true true name)
    ∧ runLoop env true true (name :: rest) acc n
        = runLoop env true true rest (acc ++ [.warningFailed name e]) (n + 1) := by
  have hst : stepPlugin env true true name = .cont [.warningFailed name e] true := by
    simp [stepPlugin, h]
  exact ⟨hst, by simp [hst, stepEvents], by simp [runLoop, hst]⟩

/-- Witness for C9 at the missing plugin. -/
theorem missing_counted_as_generic_failure_witness :
    stepPlugin envW true true "miss"
      = .cont [.warningFailed "miss" "open: no such file or directory"] true
    ∧ Event.upgradingPlugin "miss" ∉ stepEvents (stepPlugin envW true true "miss")
    ∧ runLoop envW true true ["miss", "foo"] [] 0
        = runLoop envW true true ["foo"]
            ([] ++ [.warningFailed "miss" "open: no such file or directory"]) (0 + 1) :=
  missing_counted_as_generic_failure envW "miss" "open: no such file or directory"
    ["foo"] [] 0 (by decide)

/-- C5: the end-of-run summary warning appears exactly when the run
returned nil with a positive failure counter; any fatal return bypasses
the summary. -/
theorem summary_iff_failures (env : Env) (args : List String) :
    Event.warningSummary ∈ (upgradeRunE env args).events
      ↔ ((upgradeRunE env args).fatal = none ∧ (upgradeRunE env args).nErrors > 0) := by
  cases hres : resolveTargets env args with
  | error e => simp [upgradeRunE, hres]
  | ok tm =>
      obtain ⟨names, mode⟩ := tm
      have hsum : Event.warningSummary
          ∉ (runLoop env mode.ignoreUpgraded mode.skipErrors names [] 0).1 :=
        summary_not_mem_runLoop env _ _ names [] 0 (by simp)
      rcases hval : runLoop env mode.ignoreUpgraded mode.skipErrors names [] 0 with ⟨evs, n, f⟩
      rw [hval] at hsum
      simp only [upgradeRunE, hres, hval]
      exact finish_summary_iff evs n f hsum

/-- C7: an all-plugins run that completes the loop without a fatal abort
returns nil, whatever the final failure counter is. -/
theorem tolerated_failures_return_nil (env : Env) (names : List String)
    (hin : env.installed = .ok names)
    (hloop : (runLoop env true true names [] 0).2.2 = none) :
    (upgradeRunE env []).fatal = none := by
  have hres : resolveTargets env [] = .ok (names, ⟨true, true⟩) := by
    simp [resolveTargets, hin]
  rcases hval : runLoop env true true names [] 0 with ⟨evs, n, f⟩
  rw [hval] at hloop
  simp only at hloop
  subst hloop
  simp [upgradeRunE, hres, hval, finish]

/-- Witness for C7: the concrete all-plugins run in which `bad` fails
while tolerated still returns nil, with the failure counter at one. -/
theorem tolerated_failures_return_nil_witness :
    (upgradeRunE envW []).fatal = none ∧ (upgradeRunE envW []).nErrors = 1 :=
  ⟨tolerated_failures_return_nil envW ["foo", "bad"] rfl (by decide), by decide⟩

/-- C8: a non-empty explicit argument list is the target set verbatim,
with no deduplication and no receipts check, and when no step aborts the
emitted events are the per-name events concatenated in the callers
order. -/
theorem explicit_args_verbatim_in_order (env : Env) (args : List String)
    (h : args ≠ []) :
    resolveTargets env args = .ok (args, ⟨false, false⟩)
    ∧ ((∀ p ∈ args, stepFatal (stepPlugin env false false p) = none) →
        (upgradeRunE env args).events = eventsOfList env false false args) := by
  have hie : args.isEmpty = false := by
    cases args with
    | nil => exact absurd rfl h
    | cons a t => rfl
  have hres : resolveTargets env args = .ok (args, ⟨false, false⟩) := by
    simp [resolveTargets, hie]
  refine ⟨hres, fun hall => ?_⟩
  have hrun : runLoop env false false (args ++ []) [] 0
      = runLoop env false false [] ([] ++ eventsOfList env false false args)
          (0 + incsOfList env false false args) :=
    runLoop_append_of_cont env false false args hall [] [] 0
  rw [List.append_nil, incsOfList_explicit_of_cont env args hall] at hrun
  simp only [runLoop, List.nil_append, Nat.add_zero] at hrun
  simp [upgradeRunE, hres, hrun, finish]

/-- Witness for C8: a duplicated explicit list is kept verbatim and both
copies are processed, in order. -/
theorem explicit_args_verbatim_in_order_witness :
    resolveTargets envW ["foo", "foo"] = .ok (["foo", "foo"], ⟨false, false⟩)
    ∧ (upgradeRunE envW ["foo", "foo"]).events
        = eventsOfList envW false false ["foo", "foo"] :=
  ⟨(explicit_args_verbatim_in_order envW ["foo", "foo"] (by decide)).1,
   (explicit_args_verbatim_in_order envW ["foo", "foo"] (by decide)).2 (by decide)⟩

/-- C1: in explicit-names mode, the first name whose processing fails
(not found, already current, or any other upgrade failure) aborts the
batch at once: a fatal error naming it is returned, nothing after it is
processed, and the events of the earlier successful names — their success
lines and security notices included — remain emitted. -/
theorem explicit_first_failure_aborts (env : Env) (pre post : List String)
    (name : String)
    (hpre : ∀ p ∈ pre, ∃ pl, env.lookup p = .found pl ∧ env.upgrade pl = .success)
    (hbad : (∃ e, env.lookup name = .notFound e)
        ∨ (∃ pl, env.lookup name = .found pl ∧
            (env.upgrade pl = .alreadyUpgraded ∨ ∃ e, env.upgrade pl = .failure e))) :
    (upgradeRunE env (pre ++ name :: post)).events
        = eventsOfList env false false pre ++ stepEvents (stepPlugin env false false name)
    ∧ (∀ p ∈ pre, Event.upgradedPlugin p ∈ (upgradeRunE env (pre ++ name :: post)).events)
    ∧ ((upgradeRunE env (pre ++ name :: post)).fatal
          = some ("plugin \"" ++ name ++ "\" does not exist in the plugin index")
        ∨ ∃ e, (upgradeRunE env (pre ++ name :: post)).fatal
            = some ("failed to upgrade plugin \"" ++ name ++ "\": " ++ e)) := by
  have hie : (pre ++ name :: post).isEmpty = false := by
    cases pre <;> rfl
  have hres : resolveTargets env (pre ++ name :: post)
      = .ok (pre ++ name :: post, ⟨false, false⟩) := by
    simp [resolveTargets, hie]
  have hcont : ∀ p ∈ pre, stepFatal (stepPlugin env false false p) = none := by
    intro p hp
    obtain ⟨pl, h1, h2⟩ := hpre p hp
    exact stepFatal_none_of_success env false false p pl h1 h2
  have hstep : ∃ evs inc msg, stepPlugin env false false name = .fatal evs inc msg
      ∧ (msg = "plugin \"" ++ name ++ "\" does not exist in the plugin index"
          ∨ ∃ e, msg = "failed to upgrade plugin \"" ++ name ++ "\": " ++ e) := by
    rcases hbad with ⟨e, he⟩ | ⟨pl, h1, hor⟩
    · exact ⟨[], false, "plugin \"" ++ name ++ "\" does not exist in the plugin index",
        by simp [stepPlugin, he], Or.inl rfl⟩
    · rcases hor with h2 | ⟨e, h2⟩
      · exact ⟨[.upgradingPlugin name], true,
          "failed to upgrade plugin \"" ++ name ++ "\": " ++ errIsAlreadyUpgradedMsg,
          by simp [stepPlugin, h1, h2], Or.inr ⟨errIsAlreadyUpgradedMsg, rfl⟩⟩
      · exact ⟨[.upgradingPlugin name], true,
          "failed to upgrade plugin \"" ++ name ++ "\": " ++ e,
          by simp [stepPlugin, h1, h2], Or.inr ⟨e, rfl⟩⟩
  obtain ⟨evs, inc, msg, hst, hmsg⟩ := hstep
  have hloop : runLoop env false false (pre ++ name :: post) [] 0
      = (eventsOfList env false false pre ++ evs,
          incsOfList env false false pre + (if inc then 1 else 0), some msg) := by
    rw [runLoop_append_of_cont env false false pre hcont (name :: post) [] 0,
        runLoop_cons_of_fatal env false false name post _ _ evs inc msg hst]
    simp
  have hrun : upgradeRunE env (pre ++ name :: post)
      = ⟨eventsOfList env false false pre ++ evs,
          incsOfList env false false pre + (if inc then 1 else 0), some msg⟩ := by
    simp [upgradeRunE, hres, hloop, finish]
  refine ⟨?_, ?_, ?_⟩
  · rw [hrun, hst]
    rfl
  · intro p hp
    rw [hrun]
    exact List.mem_append_left _ (upgraded_mem_eventsOfList env false false pre hpre p hp)
  · rw [hrun]
    rcases hmsg with hm | ⟨e, hm⟩
    · exact Or.inl (by rw [hm])
    · exact Or.inr ⟨e, by rw [hm]⟩

/-- Witness for C1: `upgrade foo miss baz` upgrades `foo` (its success
line stays emitted), then aborts fatally on the missing `miss`, never
reaching `baz`. -/
theorem explicit_first_failure_aborts_witness :
    (upgradeRunE envW ["foo", "miss", "baz"]).events
        = eventsOfList envW false false ["foo"]
            ++ stepEvents (stepPlugin envW false false "miss")
    ∧ Event.upgradedPlugin "foo" ∈ (upgradeRunE envW ["foo", "miss", "baz"]).events
    ∧ ((upgradeRunE envW ["foo", "miss", "baz"]).fatal
          = some ("plugin \"" ++ "miss" ++ "\" does not exist in the plugin index")
        ∨ ∃ e, (upgradeRunE envW ["foo", "miss", "baz"]).fatal
            = some ("failed to upgrade plugin \"" ++ "miss" ++ "\": " ++ e)) := by
  have hA : ∀ p ∈ ["foo"], ∃ pl, envW.lookup p = .found pl ∧ envW.upgrade pl = .success := by
    intro p hp
    rw [List.mem_singleton] at hp
    subst hp
    exact ⟨⟨"foo"⟩, by decide, by decide⟩
  have h := explicit_first_failure_aborts envW ["foo"] ["baz"] "miss" hA
    (Or.inl ⟨"open: no such file or directory", by decide⟩)
  exact ⟨h.1, h.2.1 "foo" (by decide), h.2.2⟩

/-- C10: in all-plugins mode the processing order follows the enumeration
order of the installed receipts map, which is not determined by the
installed set itself: two environments agreeing on collaborators and on
the installed set, but enumerating it differently, report in different
orders. -/
theorem all_mode_order_not_function_of_set :
    ∃ e1 e2 : Env,
      e1.lookup = e2.lookup ∧ e1.upgrade = e2.upgrade
      ∧ (∃ l1 l2, e1.installed = .ok l1 ∧ e2.installed = .ok l2
          ∧ List.Perm l1 l2 ∧ l1 ≠ l2)
      ∧ (upgradeRunE e1 []).events ≠ (upgradeRunE e2 []).events := by
  refine ⟨⟨.ok ["a", "b"], fun n => .found ⟨n⟩, fun _ => .success⟩,
          ⟨.ok ["b", "a"], fun n => .found ⟨n⟩, fun _ => .success⟩,
          rfl, rfl, ⟨["a", "b"], ["b", "a"], rfl, rfl, ?_, by decide⟩, by decide⟩
  exact List.Perm.swap "b" "a" []

end KrewUpgrade
